import Mathlib

/-!
Verification of the grid-based arcade simulation (snake_game_final.py).

The definitions below are a shallow embedding of the simulation core:
grid configuration, difficulty table, score manager, snake movement and
collision, food placement, and the per-tick game update.  Randomness is
modelled by an explicit oracle `rng : Nat -> Cell` giving the successive
cells produced by the random sampler; presentation-only state (animation
counters, particles, fonts, sounds) is omitted, as it is never read by
the simulation logic.
-/

namespace SnakeVerify

/-- A grid cell: an integer pair, as produced by the Python code
(coordinates may leave the grid transiently, hence `Int`). -/
abbrev Cell := Int × Int

namespace GameConfig

/-- `GAME_AREA_WIDTH = 700` from `GameConfig`. -/
def GAME_AREA_WIDTH : Int := 700

/-- `GAME_AREA_HEIGHT = 540` from `GameConfig`. -/
def GAME_AREA_HEIGHT : Int := 540

/-- `GRID_SIZE = 20` from `GameConfig`. -/
def GRID_SIZE : Int := 20

/-- `GRID_WIDTH = GAME_AREA_WIDTH // GRID_SIZE` (= 35). -/
def GRID_WIDTH : Int := GAME_AREA_WIDTH / GRID_SIZE

/-- `GRID_HEIGHT = GAME_AREA_HEIGHT // GRID_SIZE` (= 27). -/
def GRID_HEIGHT : Int := GAME_AREA_HEIGHT / GRID_SIZE

end GameConfig

/-- The `GameState` enumeration. -/
inductive GState where
  | menu
  | difficultySelect
  | playing
  | gameOver
  | leaderboard
deriving DecidableEq

/-- `DifficultyConfig` (the `color` field is presentation-only and omitted).
The `multiplier` is an exact rational: the Python floats 1.0, 1.5, 2.0 are
exactly representable. -/
structure DifficultyConfig where
  name : String
  speed : Nat
  multiplier : ℚ
deriving DecidableEq

/-- The `DifficultyManager.DIFFICULTIES` table. -/
def DIFFICULTIES : List (String × DifficultyConfig) :=
  [("EASY", ⟨"EASY", 8, 1⟩),
   ("MEDIUM", ⟨"MEDIUM", 12, 1.5⟩),
   ("HARD", ⟨"HARD", 18, 2⟩)]

/-- `DifficultyManager.get_config`: dictionary lookup defaulting to MEDIUM. -/
def get_config (difficulty : String) : DifficultyConfig :=
  match DIFFICULTIES.lookup difficulty with
  | some c => c
  | none => ⟨"MEDIUM", 12, 1.5⟩

/-- A leaderboard entry, the dict `{score, player, date}` built in
`ScoreManager.add_score`. -/
structure ScoreEntry where
  score : Int
  player : String
  date : String
deriving DecidableEq

/-- One step of the stable descending sort performed by
`scores.sort(key=lambda x: x.score, reverse=True)`: insert `e` before the
first entry whose score is strictly smaller, i.e. after all entries with
score greater than or equal to `e.score`. -/
def insertDesc (e : ScoreEntry) : List ScoreEntry → List ScoreEntry
  | [] => [e]
  | x :: xs => if x.score < e.score then e :: x :: xs else x :: insertDesc e xs

/-- The stable descending sort used by `ScoreManager.add_score`
(Python's `list.sort` with `reverse=True` is stable: entries with equal
scores keep their relative order). -/
def sortScores (l : List ScoreEntry) : List ScoreEntry :=
  l.foldl (fun acc x => insertDesc x acc) []

/-- Index of the first entry equal to `e`, mirroring the rank-search loop
`for i, score_entry in enumerate(...): if score_entry == entry: return i+1`. -/
def firstIndexOf (e : ScoreEntry) : List ScoreEntry → Option Nat
  | [] => none
  | x :: xs => if x = e then some 0 else (firstIndexOf e xs).map (fun i => i + 1)

/-- The rank computation at the end of `ScoreManager.add_score`: 1-based
index of the first entry equal to `entry`, or `len(scores)` if absent. -/
def scoreRank (l : List ScoreEntry) (e : ScoreEntry) : Nat :=
  match firstIndexOf e l with
  | some i => i + 1
  | none => l.length

/-- `ScoreManager.add_score` on the per-difficulty list: append the new
entry, stably sort descending by score, truncate to the top 10, and return
the new list together with the returned rank. -/
def add_score (l : List ScoreEntry) (score : Int) (player : String)
    (date : String) : List ScoreEntry × Nat :=
  let entry : ScoreEntry := ⟨score, player, date⟩
  let l2 := (sortScores (l ++ [entry])).take 10
  (l2, scoreRank l2 entry)

/-- `ScoreManager.is_high_score`:
`len(scores) < 10 or (scores and score > scores[-1].score)`. -/
def is_high_score (l : List ScoreEntry) (score : Int) : Bool :=
  decide (l.length < 10) ||
    (decide (l ≠ []) &&
      match l.getLast? with
      | some x => decide (x.score < score)
      | none => false)

/-- The per-difficulty lists are kept sorted descending by score. -/
def ScoresSorted (l : List ScoreEntry) : Prop :=
  l.Pairwise (fun a b => b.score ≤ a.score)

instance (l : List ScoreEntry) : Decidable (ScoresSorted l) :=
  inferInstanceAs (Decidable (l.Pairwise _))

/-- The snake's simulation state (animation fields omitted). -/
structure Snake where
  positions : List Cell
  direction : Cell
  grow_pending : Bool
deriving DecidableEq

/-- `Snake.__init__`: single segment at the grid center, moving right. -/
def Snake.init : Snake :=
  { positions := [(GameConfig.GRID_WIDTH / 2, GameConfig.GRID_HEIGHT / 2)]
  , direction := (1, 0)
  , grow_pending := false }

/-- `Snake.move`: prepend the new head; pop the tail unless growth is
pending, in which case clear the pending flag instead. -/
def Snake.move (s : Snake) : Snake :=
  let new_head : Cell :=
    (s.positions.headI.1 + s.direction.1, s.positions.headI.2 + s.direction.2)
  if s.grow_pending = false then
    { s with positions := (new_head :: s.positions).dropLast }
  else
    { s with positions := new_head :: s.positions, grow_pending := false }

/-- `Snake.change_direction`: apply the request unless it is the exact
negation of the current direction (the sound effect is presentation-only). -/
def Snake.change_direction (s : Snake) (new_direction : Cell) : Snake :=
  if (new_direction.1 * -1, new_direction.2 * -1) ≠ s.direction then
    { s with direction := new_direction }
  else s

/-- `Snake.check_collision`: wall test on the head, then membership of the
head in the rest of the body (`positions[0] in positions[1:]`). -/
def Snake.check_collision (s : Snake) : Bool :=
  if s.positions.headI.1 < 0 ∨ GameConfig.GRID_WIDTH ≤ s.positions.headI.1 ∨
      s.positions.headI.2 < 0 ∨ GameConfig.GRID_HEIGHT ≤ s.positions.headI.2 then
    true
  else
    decide (s.positions.headI ∈ s.positions.tail)

/-- `Snake.eat_food`: set the grow-pending flag (sound omitted). -/
def Snake.eat_food (s : Snake) : Snake :=
  { s with grow_pending := true }

/-- `Food._generate_position`: the `i`-th draw of the random oracle,
uniform over the grid; no exclusion of any occupied cell. -/
def Food.generate_position (rng : Nat → Cell) (i : Nat) : Cell := rng i

/-- `Food.__init__`: the initial position is a single unconditional draw. -/
def Food.initPos (rng : Nat → Cell) : Cell := Food.generate_position rng 0

/-- The retry loop of `Food.respawn`: while attempts remain, draw a cell
and accept it if it is not occupied; if the bound is exhausted the
position is left unchanged. -/
def Food.respawn_go (rng : Nat → Cell) (occupied : List Cell) (pos : Cell) :
    Nat → Nat → Cell
  | _, 0 => pos
  | i, fuel + 1 =>
    let new_position := Food.generate_position rng i
    if new_position ∈ occupied then
      Food.respawn_go rng occupied pos (i + 1) fuel
    else new_position

/-- `Food.respawn(snake_positions)`: up to 100 attempts. -/
def Food.respawn (rng : Nat → Cell) (occupied : List Cell) (pos : Cell) : Cell :=
  Food.respawn_go rng occupied pos 0 100

/-- The simulation-relevant state of `SnakeGame` (renderer, particles,
buttons and audio omitted).  `score_manager` maps each difficulty name to
its stored leaderboard list. -/
structure Game where
  snake : Snake
  food : Cell
  score : Nat
  state : GState
  current_difficulty : String
  score_manager : String → List ScoreEntry

/-- `final_score = int(self.score * config.multiplier)` computed in
`_handle_game_over`; raw score and multipliers are non-negative, so
Python's truncating `int()` is the floor. -/
def final_score (raw : Nat) (difficulty : String) : Int :=
  ⌊(raw : ℚ) * (get_config difficulty).multiplier⌋

/-- `SnakeGame._handle_game_over`: enter the GAME_OVER state, and if the
final score qualifies, add it to the current difficulty's leaderboard. -/
def handle_game_over (now : String) (g : Game) : Game :=
  let fs := final_score g.score g.current_difficulty
  if is_high_score (g.score_manager g.current_difficulty) fs then
    { g with state := GState.gameOver
           , score_manager := fun d =>
               if d = g.current_difficulty then
                 (add_score (g.score_manager g.current_difficulty) fs "Player" now).1
               else g.score_manager d }
  else { g with state := GState.gameOver }

/-- `SnakeGame._handle_food_eaten`: set the grow flag, add 10 to the raw
score, and respawn the food avoiding the (post-move) snake body. -/
def handle_food_eaten (rng : Nat → Cell) (g : Game) : Game :=
  { g with snake := g.snake.eat_food
         , score := g.score + 10
         , food := Food.respawn rng g.snake.positions g.food }

/-- The PLAYING branch of `SnakeGame._update_game_logic`: move the snake,
then either handle a collision, handle food consumption, or continue. -/
def update_game_logic (rng : Nat → Cell) (now : String) (g : Game) : Game :=
  if g.state = GState.playing then
    if (g.snake.move).check_collision then
      handle_game_over now { g with snake := g.snake.move }
    else if (g.snake.move).positions.headI = g.food then
      handle_food_eaten rng { g with snake := g.snake.move }
    else { g with snake := g.snake.move }
  else g

/-- `SnakeGame._start_new_game`: fresh snake, fresh unconditionally drawn
food, zero score, PLAYING state. -/
def start_new_game (rng : Nat → Cell) (g : Game) : Game :=
  { g with snake := Snake.init
         , food := Food.initPos rng
         , score := 0
         , state := GState.playing }

/-- A concrete game state used to instantiate theorems. -/
def sampleGame (sn : Snake) (fd : Cell) (sc : Nat) (st : GState) : Game :=
  { snake := sn, food := fd, score := sc, state := st
  , current_difficulty := "MEDIUM", score_manager := fun _ => [] }

/-- The random oracle that always draws the grid center. -/
def centerOracle : Nat → Cell := fun _ => (17, 13)

/-- The random oracle that always draws the origin. -/
def zeroOracle : Nat → Cell := fun _ => (0, 0)

/-! ## Helper lemmas about the simulation step -/

/-- A move prepends the freshly computed head, so the head of the
post-move body is the old head displaced by the active direction
(whenever the body is nonempty, as it always is in the game). -/
theorem move_headI (s : Snake) (hp : s.positions ≠ []) :
    (s.move).positions.headI
      = (s.positions.headI.1 + s.direction.1, s.positions.headI.2 + s.direction.2) := by
  obtain ⟨a, l, hal⟩ : ∃ a l, s.positions = a :: l := by
    cases h : s.positions with
    | nil => exact absurd h hp
    | cons a l => exact ⟨a, l, rfl⟩
  unfold Snake.move
  by_cases hg : s.grow_pending = false
  · rw [if_pos hg]
    simp [hal]
  · rw [if_neg hg]
    simp [hal]

/-- A move changes the body length by exactly the pending-growth flag:
+1 when growth is pending, 0 otherwise. -/
theorem move_length (s : Snake) :
    (s.move).positions.length
      = s.positions.length + (if s.grow_pending then 1 else 0) := by
  unfold Snake.move
  by_cases hg : s.grow_pending = false
  · rw [if_pos hg]
    simp [hg]
  · rw [if_neg hg]
    have hg' : s.grow_pending = true := by
      cases h : s.grow_pending with
      | false => exact absurd h hg
      | true => rfl
    simp [hg']

/-- If, within the first `fuel` attempts starting at draw `start`, some
drawn cell is unoccupied, the retry loop returns an unoccupied cell. -/
theorem respawn_go_not_mem (rng : Nat → Cell) (occupied : List Cell) (pos : Cell) :
    ∀ (fuel start : Nat), (∃ i, i < fuel ∧ rng (start + i) ∉ occupied) →
      Food.respawn_go rng occupied pos start fuel ∉ occupied := by
  intro fuel
  induction fuel with
  | zero =>
    intro start h
    obtain ⟨i, hi, _⟩ := h
    omega
  | succ n ih =>
    intro start h
    obtain ⟨i, hi, hfree⟩ := h
    by_cases hmem : rng start ∈ occupied
    · have hstep : Food.respawn_go rng occupied pos start (n + 1)
          = Food.respawn_go rng occupied pos (start + 1) n := by
        simp [Food.respawn_go, Food.generate_position, hmem]
      rw [hstep]
      apply ih (start + 1)
      cases i with
      | zero =>
        exact absurd (by simpa using hmem) (by simpa using hfree)
      | succ j =>
        refine ⟨j, by omega, ?_⟩
        have harith : start + (j + 1) = start + 1 + j := by omega
        rwa [harith] at hfree
    · have hstep : Food.respawn_go rng occupied pos start (n + 1) = rng start := by
        simp [Food.respawn_go, Food.generate_position, hmem]
      rw [hstep]
      exact hmem

/-- If every one of the first `fuel` draws starting at `start` is
occupied, the retry loop leaves the position unchanged. -/
theorem respawn_go_exhausted (rng : Nat → Cell) (occupied : List Cell) (pos : Cell) :
    ∀ (fuel start : Nat), (∀ i, i < fuel → rng (start + i) ∈ occupied) →
      Food.respawn_go rng occupied pos start fuel = pos := by
  intro fuel
  induction fuel with
  | zero =>
    intro start _
    rfl
  | succ n ih =>
    intro start h
    have h0 : rng start ∈ occupied := by simpa using h 0 (by omega)
    have hstep : Food.respawn_go rng occupied pos start (n + 1)
        = Food.respawn_go rng occupied pos (start + 1) n := by
      simp [Food.respawn_go, Food.generate_position, h0]
    rw [hstep]
    apply ih (start + 1)
    intro i hi
    have harith : start + 1 + i = start + (i + 1) := by omega
    rw [harith]
    exact h (i + 1) (by omega)

/-! ## C1: food never on a body cell at observable moments -/

/-- C1 counterexample: immediately after session creation the Food cell
can coincide with the Body cell, because `Food.__init__` draws a position
without excluding the snake.  With an oracle that draws the grid center,
the fresh session's food lies on the fresh snake's single body cell. -/
theorem food_spawn_overlap_cex :
    (start_new_game centerOracle
        (sampleGame Snake.init (0, 0) 0 GState.difficultySelect)).food
      ∈ (start_new_game centerOracle
        (sampleGame Snake.init (0, 0) 0 GState.difficultySelect)).snake.positions := by
  decide

/-- C1 (amended): only a completed respawn guarantees separation — when
some cell drawn within the 100-attempt bound is outside the occupied set,
the new food cell is not an element of the occupied set.  (At session
creation the food is drawn with no exclusion, and on retry exhaustion the
old position is retained, so no such guarantee exists there.) -/
theorem respawn_success_avoids_occupied (rng : Nat → Cell) (occupied : List Cell)
    (pos : Cell) (h : ∃ i, i < 100 ∧ rng i ∉ occupied) :
    Food.respawn rng occupied pos ∉ occupied := by
  apply respawn_go_not_mem rng occupied pos 100 0
  obtain ⟨i, hi, hfree⟩ := h
  exact ⟨i, hi, by simpa using hfree⟩

/-- Witness for C1's amended theorem at a concrete input. -/
theorem respawn_success_avoids_occupied_witness :
    (∃ i, i < 100 ∧ zeroOracle i ∉ [((17 : Int), (13 : Int))]) ∧
    Food.respawn zeroOracle [((17 : Int), (13 : Int))] (5, 5)
      ∉ [((17 : Int), (13 : Int))] :=
  ⟨⟨0, by decide, by decide⟩,
   respawn_success_avoids_occupied zeroOracle [((17 : Int), (13 : Int))] (5, 5)
     ⟨0, by decide, by decide⟩⟩

/-! ## C2: behavior when the respawn retry bound is exhausted -/

/-- C2 counterexample: when all 100 draws are occupied, the food keeps its
old position `(5,5)`; the last sampled cell `(0,0)` (occupied) is *not*
accepted. -/
theorem respawn_exhaustion_cex :
    Food.respawn zeroOracle [((0 : Int), (0 : Int))] (5, 5) = (5, 5) ∧
    ((0 : Int), (0 : Int)) ∈ [((0 : Int), (0 : Int))] ∧
    ((5 : Int), (5 : Int)) ≠ ((0 : Int), (0 : Int)) := by
  decide

/-- C2 (amended): when the retry bound of 100 attempts is exhausted
because every sampled cell was in the occupied set, no sampled cell is
accepted: the food position is left unchanged at its previous value. -/
theorem respawn_exhaustion_keeps_position (rng : Nat → Cell) (occupied : List Cell)
    (pos : Cell) (h : ∀ i, i < 100 → rng i ∈ occupied) :
    Food.respawn rng occupied pos = pos := by
  apply respawn_go_exhausted rng occupied pos 100 0
  intro i hi
  simpa using h i hi

/-- Witness for C2's amended theorem at a concrete input. -/
theorem respawn_exhaustion_keeps_position_witness :
    (∀ i, i < 100 → zeroOracle i ∈ [((0 : Int), (0 : Int))]) ∧
    Food.respawn zeroOracle [((0 : Int), (0 : Int))] (3, 3) = (3, 3) :=
  ⟨fun _ _ => by simp [zeroOracle],
   respawn_exhaustion_keeps_position zeroOracle [((0 : Int), (0 : Int))] (3, 3)
     (fun _ _ => by simp [zeroOracle])⟩

/-! ## C3: are directional intents latched until the next tick? -/

/-- C3 counterexample: while moving right, submitting up and then left
before the next step makes the next step move left.  Each keyboard intent
calls `change_direction` immediately, so the reversal check runs against
the intermediately updated direction, not against the direction used by
the previous step. -/
theorem intents_latched_cex :
    Snake.init.direction = (1, 0) ∧
    ((Snake.init.change_direction (0, -1)).change_direction (-1, 0)).direction
      = (-1, 0) ∧
    (((Snake.init.change_direction (0, -1)).change_direction (-1, 0)).move).positions.headI
      = (16, 13) := by
  decide

/-- C3 (amended): directional intents are applied immediately on receipt,
each validated against the direction current at that moment; the
direction used by the next step is the result of applying every intent of
the interval in order.  In particular up-then-left while moving right
makes the next step move left. -/
theorem intents_applied_immediately (s : Snake) (hd : s.direction = (1, 0))
    (hp : s.positions ≠ []) :
    ((s.change_direction (0, -1)).change_direction (-1, 0)).direction = (-1, 0) ∧
    (((s.change_direction (0, -1)).change_direction (-1, 0)).move).positions.headI
      = (s.positions.headI.1 - 1, s.positions.headI.2) := by
  have hcd : (s.change_direction (0, -1)).change_direction (-1, 0)
      = { s with direction := (-1, 0) } := by
    simp [Snake.change_direction, hd]
  refine ⟨by rw [hcd], ?_⟩
  rw [hcd, move_headI { s with direction := (-1, 0) } (by simpa using hp)]
  simp [sub_eq_add_neg]

/-- Witness for C3's amended theorem at a concrete input. -/
theorem intents_applied_immediately_witness :
    Snake.init.direction = (1, 0) ∧
    Snake.init.positions ≠ [] ∧
    (((Snake.init.change_direction (0, -1)).change_direction (-1, 0)).direction
        = (-1, 0) ∧
     (((Snake.init.change_direction (0, -1)).change_direction (-1, 0)).move).positions.headI
        = (Snake.init.positions.headI.1 - 1, Snake.init.positions.headI.2)) :=
  ⟨by decide, by decide,
   intents_applied_immediately Snake.init (by decide) (by decide)⟩

/-! ## C8: a reversal request is silently dropped -/

/-- C8: a direction-change request that is the exact negation of the
active direction leaves the snake unchanged; the next step still moves in
the old direction; and any non-reversing request does change the active
direction. -/
theorem reversal_dropped (s : Snake) (d : Cell)
    (hd : d = (-s.direction.1, -s.direction.2)) (hp : s.positions ≠ []) :
    s.change_direction d = s ∧
    ((s.change_direction d).move).positions.headI
      = (s.positions.headI.1 + s.direction.1, s.positions.headI.2 + s.direction.2) ∧
    ∀ d2 : Cell, (d2.1 * -1, d2.2 * -1) ≠ s.direction →
      (s.change_direction d2).direction = d2 := by
  have hcond : ((d.1 * -1, d.2 * -1) : Cell) = s.direction := by
    rw [hd]
    simp
  have h1 : s.change_direction d = s := by
    unfold Snake.change_direction
    rw [if_neg (fun hne => hne hcond)]
  refine ⟨h1, ?_, ?_⟩
  · rw [h1]
    exact move_headI s hp
  · intro d2 h2
    unfold Snake.change_direction
    rw [if_pos h2]

/-- Witness for C8 at a concrete input: moving right, the reversal intent
left is dropped and the next step still moves right. -/
theorem reversal_dropped_witness :
    (((-1, 0) : Cell) = (-Snake.init.direction.1, -Snake.init.direction.2)) ∧
    Snake.init.positions ≠ [] ∧
    Snake.init.change_direction (-1, 0) = Snake.init ∧
    ((Snake.init.change_direction (-1, 0)).move).positions.headI
      = (Snake.init.positions.headI.1 + Snake.init.direction.1,
         Snake.init.positions.headI.2 + Snake.init.direction.2) ∧
    (Snake.init.positions.headI.1 + Snake.init.direction.1,
       Snake.init.positions.headI.2 + Snake.init.direction.2) = ((18 : Int), (13 : Int)) := by
  refine ⟨by decide, by decide, ?_, ?_, by decide⟩
  · exact (reversal_dropped Snake.init (-1, 0) (by decide) (by decide)).1
  · exact (reversal_dropped Snake.init (-1, 0) (by decide) (by decide)).2.1

/-! ## C9: final score computation on collision -/

/-- C9: the MEDIUM multiplier is 1.5; the final score is
`floor(rawScore * multiplier)`, which for MEDIUM is `(3 * raw) / 2`
rounded down; raw score 40 yields 60; and the game-over handler stores an
entry carrying exactly `final_score raw` (shown here for a session whose
leaderboard is empty, where the score always qualifies). -/
theorem final_score_spec :
    (get_config "MEDIUM").multiplier = 1.5 ∧
    ((1.5 : ℚ) = 3 / 2) ∧
    final_score 40 "MEDIUM" = 60 ∧
    (∀ raw : Nat, final_score raw "MEDIUM" = (3 * (raw : Int)) / 2) ∧
    (∀ (now : String) (raw : Nat) (sn : Snake) (fd : Cell),
      (handle_game_over now (sampleGame sn fd raw GState.playing)).state
          = GState.gameOver ∧
      (handle_game_over now (sampleGame sn fd raw GState.playing)).score_manager "MEDIUM"
          = [⟨final_score raw "MEDIUM", "Player", now⟩]) := by
  have hm : (get_config "MEDIUM").multiplier = 1.5 := rfl
  have h4 : ∀ raw : Nat, final_score raw "MEDIUM" = (3 * (raw : Int)) / 2 := by
    intro raw
    unfold final_score
    rw [hm]
    have hq : (raw : ℚ) * (1.5 : ℚ) = ((3 * (raw : Int) : Int) : ℚ) / ((2 : ℕ) : ℚ) := by
      rw [show (1.5 : ℚ) = 3 / 2 by norm_num]
      push_cast
      ring
    rw [hq, Rat.floor_intCast_div_natCast]
    norm_num
  refine ⟨hm, by norm_num, ?_, h4, ?_⟩
  · rw [h4 40]
    norm_num
  · intro now raw sn fd
    exact ⟨rfl, rfl⟩

/-! ## C10: initial session state -/

/-- C10: every newly created session has a single-cell body at the grid
center `(gridWidth / 2, gridHeight / 2) = (17, 13)`, direction right,
grow flag cleared and raw score 0, irrespective of the previous state. -/
theorem new_game_init_spec (g : Game) (rng : Nat → Cell) :
    (start_new_game rng g).snake = Snake.init ∧
    Snake.init.positions = [(GameConfig.GRID_WIDTH / 2, GameConfig.GRID_HEIGHT / 2)] ∧
    GameConfig.GRID_WIDTH / 2 = 17 ∧
    GameConfig.GRID_HEIGHT / 2 = 13 ∧
    (start_new_game rng g).snake.direction = (1, 0) ∧
    (start_new_game rng g).snake.grow_pending = false ∧
    (start_new_game rng g).score = 0 :=
  ⟨rfl, rfl, by decide, by decide, rfl, rfl, rfl⟩

/-! ## C6: body growth accounting -/

/-- C6: the body length changes by exactly the pending-growth flag on
every step (+1 when pending, unchanged otherwise, hence non-decreasing);
and a Playing tick whose moved head lands on the food sets the grow flag
for the next step, leaves the current step's length governed by the
previous flag only, and adds 10 to the raw score. -/
theorem move_growth_spec (s : Snake) (rng : Nat → Cell) (now : String) (g : Game)
    (hst : g.state = GState.playing)
    (hnc : (g.snake.move).check_collision = false)
    (hf : (g.snake.move).positions.headI = g.food) :
    (s.move).positions.length
        = s.positions.length + (if s.grow_pending then 1 else 0) ∧
    (update_game_logic rng now g).snake.grow_pending = true ∧
    (update_game_logic rng now g).snake.positions.length
        = g.snake.positions.length + (if g.snake.grow_pending then 1 else 0) ∧
    (update_game_logic rng now g).score = g.score + 10 := by
  have hupd : update_game_logic rng now g
      = handle_food_eaten rng { g with snake := g.snake.move } := by
    unfold update_game_logic
    rw [if_pos hst, if_neg (by simp [hnc]), if_pos hf]
  refine ⟨move_length s, ?_, ?_, ?_⟩
  · rw [hupd]
    rfl
  · rw [hupd]
    simpa [handle_food_eaten, Snake.eat_food] using move_length g.snake
  · rw [hupd]
    rfl

/-- Concrete Playing-state game about to eat the food at (6,5). -/
def c6Game : Game := sampleGame ⟨[(5, 5)], (1, 0), false⟩ (6, 5) 0 GState.playing

/-- Witness for C6 at a concrete input. -/
theorem move_growth_spec_witness :
    c6Game.state = GState.playing ∧
    (c6Game.snake.move).check_collision = false ∧
    (c6Game.snake.move).positions.headI = c6Game.food ∧
    ((Snake.init.move).positions.length
        = Snake.init.positions.length + (if Snake.init.grow_pending then 1 else 0) ∧
     (update_game_logic zeroOracle "now" c6Game).snake.grow_pending = true ∧
     (update_game_logic zeroOracle "now" c6Game).snake.positions.length
        = c6Game.snake.positions.length + (if c6Game.snake.grow_pending then 1 else 0) ∧
     (update_game_logic zeroOracle "now" c6Game).score = c6Game.score + 10) :=
  ⟨by decide, by decide, by decide,
   move_growth_spec Snake.init zeroOracle "now" c6Game (by decide) (by decide) (by decide)⟩

/-! ## C5: leaderboard qualification -/

/-- In a descending-sorted list, the last entry has the minimal score. -/
theorem getLast_is_min (l : List ScoreEntry) (hs : ScoresSorted l) (m : ScoreEntry)
    (hm : l.getLast? = some m) : ∀ y ∈ l, m.score ≤ y.score := by
  obtain ⟨ys, rfl⟩ := List.getLast?_eq_some_iff.mp hm
  unfold ScoresSorted at hs
  intro y hy
  rcases List.mem_append.mp hy with h | h
  · exact (List.pairwise_append.mp hs).2.2 y h m (by simp)
  · have : y = m := by simpa using h
    rw [this]

/-- C5: `is_high_score` returns true exactly when the stored list has
fewer than 10 entries, or the score strictly exceeds the lowest stored
value (the last entry of the descending-sorted list); a score equal to
the lowest value does not qualify. -/
theorem is_high_score_iff (l : List ScoreEntry) (s : Int) (hs : ScoresSorted l) :
    is_high_score l s = true ↔
      (l.length < 10 ∨
        ∃ m, l.getLast? = some m ∧ (∀ y ∈ l, m.score ≤ y.score) ∧ m.score < s) := by
  unfold is_high_score
  constructor
  · intro h
    simp only [Bool.or_eq_true, decide_eq_true_eq, Bool.and_eq_true, ne_eq] at h
    rcases h with h | ⟨_, hmatch⟩
    · exact Or.inl h
    · cases hgl : l.getLast? with
      | none =>
        rw [hgl] at hmatch
        simp at hmatch
      | some m =>
        rw [hgl] at hmatch
        simp only [decide_eq_true_eq] at hmatch
        exact Or.inr ⟨m, rfl, getLast_is_min l hs m hgl, hmatch⟩
  · intro h
    rcases h with h | ⟨m, hm, _, hlt⟩
    · simp [h]
    · have hne : l ≠ [] := by
        obtain ⟨ys, rfl⟩ := List.getLast?_eq_some_iff.mp hm
        simp
      simp [hm, hne, hlt]

/-- A concrete full leaderboard whose minimum stored value is 100. -/
def c5Board : List ScoreEntry :=
  [⟨1000, "P", "t1"⟩, ⟨900, "P", "t2"⟩, ⟨800, "P", "t3"⟩, ⟨700, "P", "t4"⟩,
   ⟨600, "P", "t5"⟩, ⟨500, "P", "t6"⟩, ⟨400, "P", "t7"⟩, ⟨300, "P", "t8"⟩,
   ⟨200, "P", "t9"⟩, ⟨100, "P", "t10"⟩]

/-- Witness for C5: with 10 stored entries of minimum 100, a score of 100
does not qualify and a score of 101 does. -/
theorem is_high_score_iff_witness :
    ScoresSorted c5Board ∧
    (is_high_score c5Board 100 = true ↔
      (c5Board.length < 10 ∨
        ∃ m, c5Board.getLast? = some m ∧ (∀ y ∈ c5Board, m.score ≤ y.score) ∧
          m.score < 100)) ∧
    is_high_score c5Board 100 = false ∧
    is_high_score c5Board 101 = true :=
  ⟨by decide, is_high_score_iff c5Board 100 (by decide), by decide, by decide⟩

/-! ## C7: collision is tested after tail removal -/

/-- The body after a non-growing move: new head prepended, tail dropped. -/
theorem move_positions_no_grow (s : Snake) (hg : s.grow_pending = false) :
    (s.move).positions
      = ((s.positions.headI.1 + s.direction.1, s.positions.headI.2 + s.direction.2)
          :: s.positions).dropLast := by
  unfold Snake.move
  rw [if_pos hg]

/-- `check_collision` reports a collision exactly for an out-of-bounds
head or a head equal to another element of the (post-removal) body. -/
theorem check_collision_iff (t : Snake) :
    t.check_collision = true ↔
      (t.positions.headI.1 < 0 ∨ GameConfig.GRID_WIDTH ≤ t.positions.headI.1 ∨
       t.positions.headI.2 < 0 ∨ GameConfig.GRID_HEIGHT ≤ t.positions.headI.2 ∨
       t.positions.headI ∈ t.positions.tail) := by
  unfold Snake.check_collision
  by_cases h : t.positions.headI.1 < 0 ∨ GameConfig.GRID_WIDTH ≤ t.positions.headI.1 ∨
      t.positions.headI.2 < 0 ∨ GameConfig.GRID_HEIGHT ≤ t.positions.headI.2
  · rw [if_pos h]
    constructor
    · intro _
      tauto
    · intro _
      rfl
  · rw [if_neg h]
    simp only [decide_eq_true_eq]
    tauto

/-- C7: with a duplicate-free, in-bounds body of length at least 2 and no
pending growth, a step whose new head is the cell currently occupied by
the tail causes no collision — the tail is removed before the test; and
the collision report of any state is exactly wall-or-self as computed on
the post-removal body. -/
theorem tail_chase_no_collision (s : Snake)
    (hnd : s.positions.Nodup)
    (_hlen : 2 ≤ s.positions.length)
    (hg : s.grow_pending = false)
    (hb : ∀ p ∈ s.positions, 0 ≤ p.1 ∧ p.1 < GameConfig.GRID_WIDTH ∧
            0 ≤ p.2 ∧ p.2 < GameConfig.GRID_HEIGHT)
    (ht : s.positions.getLast?
        = some (s.positions.headI.1 + s.direction.1,
                s.positions.headI.2 + s.direction.2)) :
    (s.move).check_collision = false ∧
    ∀ t : Snake, t.check_collision = true ↔
      (t.positions.headI.1 < 0 ∨ GameConfig.GRID_WIDTH ≤ t.positions.headI.1 ∨
       t.positions.headI.2 < 0 ∨ GameConfig.GRID_HEIGHT ≤ t.positions.headI.2 ∨
       t.positions.headI ∈ t.positions.tail) := by
  refine ⟨?_, check_collision_iff⟩
  set nh : Cell := (s.positions.headI.1 + s.direction.1,
                    s.positions.headI.2 + s.direction.2) with hnh
  obtain ⟨ys, hys⟩ := List.getLast?_eq_some_iff.mp ht
  have hmv : (s.move).positions = nh :: ys := by
    rw [move_positions_no_grow s hg, ← hnh, hys, ← List.cons_append,
        List.dropLast_concat]
  have hnh_mem : nh ∈ s.positions := by
    rw [hys]
    simp
  obtain ⟨hb1, hb2, hb3, hb4⟩ := hb nh hnh_mem
  have hnotin : nh ∉ ys := by
    intro hin
    rw [hys] at hnd
    exact (List.nodup_append.mp hnd).2.2 hin (by simp)
  rw [Bool.eq_false_iff]
  intro hcol
  rw [check_collision_iff, hmv] at hcol
  simp only [List.headI, List.tail] at hcol
  rcases hcol with h | h | h | h | h
  · exact absurd h (not_lt.mpr hb1)
  · exact absurd h (not_le.mpr hb2)
  · exact absurd h (not_lt.mpr hb3)
  · exact absurd h (not_le.mpr hb4)
  · exact hnotin h

/-- A concrete snake about to move into the cell its own tail occupies. -/
def c7Snake : Snake := ⟨[(5, 5), (5, 6)], (0, 1), false⟩

/-- Witness for C7 at a concrete input. -/
theorem tail_chase_no_collision_witness :
    c7Snake.positions.Nodup ∧
    2 ≤ c7Snake.positions.length ∧
    c7Snake.grow_pending = false ∧
    (∀ p ∈ c7Snake.positions, 0 ≤ p.1 ∧ p.1 < GameConfig.GRID_WIDTH ∧
        0 ≤ p.2 ∧ p.2 < GameConfig.GRID_HEIGHT) ∧
    c7Snake.positions.getLast?
        = some (c7Snake.positions.headI.1 + c7Snake.direction.1,
                c7Snake.positions.headI.2 + c7Snake.direction.2) ∧
    (c7Snake.move).check_collision = false :=
  ⟨by decide, by decide, by decide, by decide, by decide,
   (tail_chase_no_collision c7Snake (by decide) (by decide) (by decide)
      (by decide) (by decide)).1⟩

/-! ## C4: add_score — stable descending insert, truncation, rank -/

/-- Entries whose score is at least `v` (the prefix a new entry of score
`v` is placed after). -/
def scoreGe (v : Int) : ScoreEntry → Bool := fun x => decide (v ≤ x.score)

/-- `insertDesc` places the new entry after every entry scoring at least
as much, and before the rest, preserving their order. -/
theorem insertDesc_eq_takeWhile (e : ScoreEntry) (l : List ScoreEntry) :
    insertDesc e l
      = l.takeWhile (scoreGe e.score) ++ e :: l.dropWhile (scoreGe e.score) := by
  induction l with
  | nil => rfl
  | cons x xs ih =>
    unfold insertDesc
    rw [List.takeWhile_cons, List.dropWhile_cons]
    by_cases h : x.score < e.score
    · have hP : scoreGe e.score x = false := by
        simp [scoreGe, not_le.mpr h]
      rw [if_pos h, hP]
      simp
    · have hP : scoreGe e.score x = true := by
        simp [scoreGe, not_lt.mp h]
      rw [if_neg h, hP]
      simp [ih]

/-- Inserting an entry scoring no more than every element appends it. -/
theorem insertDesc_append_of_ge (e : ScoreEntry) (l : List ScoreEntry)
    (h : ∀ y ∈ l, e.score ≤ y.score) : insertDesc e l = l ++ [e] := by
  induction l with
  | nil => rfl
  | cons x xs ih =>
    unfold insertDesc
    rw [if_neg (not_lt.mpr (h x (by simp)))]
    rw [ih (fun y hy => h y (by simp [hy]))]
    rfl

/-- Folding the stable insert over an already-sorted remainder rebuilds
the list unchanged. -/
theorem foldl_insertDesc_sorted :
    ∀ (l acc : List ScoreEntry), ScoresSorted (acc ++ l) →
      List.foldl (fun a x => insertDesc x a) acc l = acc ++ l := by
  intro l
  induction l with
  | nil =>
    intro acc _
    simp
  | cons x xs ih =>
    intro acc hs
    unfold ScoresSorted at hs
    have hins : insertDesc x acc = acc ++ [x] := by
      apply insertDesc_append_of_ge
      intro y hy
      exact (List.pairwise_append.mp hs).2.2 y hy x (by simp)
    have hassoc : (acc ++ [x]) ++ xs = acc ++ x :: xs := by simp
    simp only [List.foldl_cons]
    rw [hins, ih (acc ++ [x]) (by unfold ScoresSorted; rw [hassoc]; exact hs), hassoc]

/-- The stable sort is the identity on sorted input. -/
theorem sortScores_of_sorted (l : List ScoreEntry) (hs : ScoresSorted l) :
    sortScores l = l := by
  unfold sortScores
  simpa using foldl_insertDesc_sorted l [] (by simpa using hs)

/-- Sorting with one appended element is a single stable insert. -/
theorem sortScores_append_single (l : List ScoreEntry) (e : ScoreEntry) :
    sortScores (l ++ [e]) = insertDesc e (sortScores l) := by
  unfold sortScores
  rw [List.foldl_append]
  rfl

/-- In a sorted list, every entry left after dropping the `≥ v` prefix
scores strictly below `v`. -/
theorem mem_dropWhile_lt (v : Int) (l : List ScoreEntry) (hs : ScoresSorted l) :
    ∀ y ∈ l.dropWhile (scoreGe v), y.score < v := by
  induction l with
  | nil =>
    intro y hy
    simp at hy
  | cons x xs ih =>
    unfold ScoresSorted at hs
    rw [List.pairwise_cons] at hs
    intro y hy
    rw [List.dropWhile_cons] at hy
    by_cases h : v ≤ x.score
    · rw [if_pos (by simp [scoreGe, h])] at hy
      exact ih hs.2 y hy
    · rw [if_neg (by simp [scoreGe, h])] at hy
      rcases List.mem_cons.mp hy with rfl | hmem
      · exact not_le.mp h
      · exact lt_of_le_of_lt (hs.1 y hmem) (not_le.mp h)

/-- Position of the first occurrence of `e` in `A ++ e :: C` when `e`
does not occur in `A`. -/
theorem firstIndexOf_append_cons (e : ScoreEntry) (A C : List ScoreEntry)
    (h : e ∉ A) : firstIndexOf e (A ++ e :: C) = some A.length := by
  induction A with
  | nil => simp [firstIndexOf]
  | cons a as ih =>
    have hne : a ≠ e := fun hcon => h (by simp [hcon])
    simp only [List.cons_append, firstIndexOf, List.append_eq]
    rw [if_neg hne, ih (fun hmem => h (by simp [hmem]))]
    rfl

/-- C4 counterexample: inserting score 50 into a full board of ten
entries of 100 evicts the new entry, yet `add_score` returns 10 — a value
that is not the position of the inserted entry in the truncated list (the
entry is absent from it). -/
theorem add_score_rank_cex :
    (add_score
        [⟨100, "P", "e1"⟩, ⟨100, "P", "e2"⟩, ⟨100, "P", "e3"⟩, ⟨100, "P", "e4"⟩,
         ⟨100, "P", "e5"⟩, ⟨100, "P", "e6"⟩, ⟨100, "P", "e7"⟩, ⟨100, "P", "e8"⟩,
         ⟨100, "P", "e9"⟩, ⟨100, "P", "e10"⟩] 50 "P" "new").2 = 10 ∧
    (⟨50, "P", "new"⟩ : ScoreEntry) ∉
      (add_score
        [⟨100, "P", "e1"⟩, ⟨100, "P", "e2"⟩, ⟨100, "P", "e3"⟩, ⟨100, "P", "e4"⟩,
         ⟨100, "P", "e5"⟩, ⟨100, "P", "e6"⟩, ⟨100, "P", "e7"⟩, ⟨100, "P", "e8"⟩,
         ⟨100, "P", "e9"⟩, ⟨100, "P", "e10"⟩] 50 "P" "new").1 := by
  decide

/-- C4 (amended): `add_score` appends the entry, stably re-sorts
descending (the new entry lands after the stored entries scoring at least
as much and before the strictly lower ones, whose relative orders are
preserved), truncates to 10, keeps the list sorted with at most 10
entries, and — when the entry is distinct from all stored entries and
survives truncation — returns its 1-based position; scenario E holds. -/
theorem add_score_spec (l : List ScoreEntry) (e : ScoreEntry)
    (hs : ScoresSorted l)
    (hne : e ∉ l)
    (hsurv : (l.takeWhile (scoreGe e.score)).length < 10) :
    (add_score l e.score e.player e.date).1
        = (l.takeWhile (scoreGe e.score) ++ e :: l.dropWhile (scoreGe e.score)).take 10 ∧
    (add_score l e.score e.player e.date).2
        = (l.takeWhile (scoreGe e.score)).length + 1 ∧
    (add_score l e.score e.player e.date).1[(l.takeWhile (scoreGe e.score)).length]?
        = some e ∧
    ScoresSorted (add_score l e.score e.player e.date).1 ∧
    (add_score l e.score e.player e.date).1.length ≤ 10 ∧
    ((add_score (add_score (add_score (add_score [] 50 "P" "d1").1
          30 "P" "d2").1 80 "P" "d3").1 10 "P" "d4").1
        = [⟨80, "P", "d3"⟩, ⟨50, "P", "d1"⟩, ⟨30, "P", "d2"⟩, ⟨10, "P", "d4"⟩] ∧
     (add_score (add_score (add_score [] 50 "P" "d1").1 30 "P" "d2").1
          80 "P" "d3").2 = 1) := by
  have hsort : sortScores (l ++ [e])
      = l.takeWhile (scoreGe e.score) ++ e :: l.dropWhile (scoreGe e.score) := by
    rw [sortScores_append_single, sortScores_of_sorted l hs, insertDesc_eq_takeWhile]
  have h1 : (add_score l e.score e.player e.date).1
      = (l.takeWhile (scoreGe e.score) ++ e :: l.dropWhile (scoreGe e.score)).take 10 := by
    show (sortScores (l ++ [e])).take 10 = _
    rw [hsort]
  have hAle : (l.takeWhile (scoreGe e.score)).length ≤ 10 := le_of_lt hsurv
  have hsplit : (l.takeWhile (scoreGe e.score) ++ e :: l.dropWhile (scoreGe e.score)).take 10
      = l.takeWhile (scoreGe e.score)
          ++ e :: (l.dropWhile (scoreGe e.score)).take
                (10 - (l.takeWhile (scoreGe e.score)).length - 1) := by
    rw [List.take_append_eq_append_take, List.take_of_length_le hAle]
    congr 1
    obtain ⟨k, hk⟩ : ∃ k, 10 - (l.takeWhile (scoreGe e.score)).length = k + 1 :=
      ⟨10 - (l.takeWhile (scoreGe e.score)).length - 1, by omega⟩
    have hk2 : k = 10 - (l.takeWhile (scoreGe e.score)).length - 1 := by omega
    rw [hk, List.take_succ_cons, hk2]
    simp
  have heA : e ∉ l.takeWhile (scoreGe e.score) :=
    fun hmem => hne ((List.takeWhile_sublist _).subset hmem)
  have h2 : (add_score l e.score e.player e.date).2
      = (l.takeWhile (scoreGe e.score)).length + 1 := by
    show scoreRank ((sortScores (l ++ [e])).take 10) e = _
    rw [hsort, hsplit]
    unfold scoreRank
    rw [firstIndexOf_append_cons e _ _ heA]
  have hpair : ScoresSorted
      (l.takeWhile (scoreGe e.score) ++ e :: l.dropWhile (scoreGe e.score)) := by
    unfold ScoresSorted at hs ⊢
    rw [List.pairwise_append]
    refine ⟨List.Pairwise.sublist (List.takeWhile_sublist _) hs, ?_, ?_⟩
    · rw [List.pairwise_cons]
      exact ⟨fun y hy => le_of_lt (mem_dropWhile_lt e.score l hs y hy),
             List.Pairwise.sublist (List.dropWhile_sublist _) hs⟩
    · intro a ha b hb
      have hae : e.score ≤ a.score := by
        have := List.mem_takeWhile_imp ha
        simpa [scoreGe] using this
      rcases List.mem_cons.mp hb with rfl | hbB
      · exact hae
      · exact le_of_lt (lt_of_lt_of_le (mem_dropWhile_lt e.score l hs b hbB) hae)
  refine ⟨h1, h2, ?_, ?_, ?_, by decide, by decide⟩
  · rw [h1, hsplit, List.getElem?_append_right (le_refl _)]
    simp
  · rw [h1]
    exact List.Pairwise.sublist (List.take_sublist _ _) hpair
  · rw [h1]
    simp [List.length_take]

/-- Witness for C4's amended theorem at a concrete input. -/
theorem add_score_spec_witness :
    ScoresSorted [⟨100, "P", "a"⟩, ⟨50, "P", "b"⟩] ∧
    (⟨70, "Q", "c"⟩ : ScoreEntry) ∉ [⟨100, "P", "a"⟩, ⟨50, "P", "b"⟩] ∧
    (([⟨100, "P", "a"⟩, ⟨50, "P", "b"⟩] :
        List ScoreEntry).takeWhile (scoreGe 70)).length < 10 ∧
    ((add_score [⟨100, "P", "a"⟩, ⟨50, "P", "b"⟩] 70 "Q" "c").2 = 2 ∧
     (add_score [⟨100, "P", "a"⟩, ⟨50, "P", "b"⟩] 70 "Q" "c").1
        = [⟨100, "P", "a"⟩, ⟨70, "Q", "c"⟩, ⟨50, "P", "b"⟩]) := by
  refine ⟨by decide, by decide, by decide, ?_, by decide⟩
  have h := (add_score_spec [⟨100, "P", "a"⟩, ⟨50, "P", "b"⟩] ⟨70, "Q", "c"⟩
    (by decide) (by decide) (by decide)).2.1
  simpa using h

end SnakeVerify
